import Mathlib

/-!
Verification of the agent-finder.nvim Python SDK and agent runner
(`src/python/sdk.py`, `src/python/agent_runner.py`).

We shallowly embed the Python code over a model of JSON values.  Python
dynamic values flowing through the code are modelled by `Json`; operations
that can raise (`.get` on a non-dict, `int()` on a non-number, iteration of
a non-iterable, `json.loads` on broken input) return `Except PyErr _`.
JSON numbers are modelled as integers: no claim under verification touches
fractional values.
-/

namespace AFinder

/-- A JSON value as produced by Python's `json.loads`, with numbers
restricted to integers.  Objects are association lists in source order. -/
inductive Json where
  | null : Json
  | bool (b : Bool) : Json
  | num (n : Int) : Json
  | str (s : String) : Json
  | arr (elems : List Json) : Json
  | obj (fields : List (String × Json)) : Json
deriving Repr, Inhabited

/-- Python exceptions the embedded code can raise. -/
inductive PyErr where
  | attributeError : PyErr
  | typeError : PyErr
  | valueError : PyErr
  | jsonDecodeError (msg : String) : PyErr
deriving Repr, DecidableEq, Inhabited

/-- Last-occurrence lookup in an association list, matching Python dict
construction from JSON source (duplicate keys: last wins). -/
def jlookup (k : String) : List (String × Json) → Option Json
  | [] => none
  | (k', v) :: rest =>
    match jlookup k rest with
    | some r => some r
    | none => if k' = k then some v else none

/-- Python truthiness of a JSON value (`bool(x)`). -/
def truthy : Json → Bool
  | .null => false
  | .bool b => b
  | .num n => n != 0
  | .str s => !(s.isEmpty)
  | .arr xs => !xs.isEmpty
  | .obj fs => !fs.isEmpty

/-- Python `a or b` on JSON values. -/
def pyOr (a b : Json) : Json := if truthy a then a else b

/-- Escape a character for the (simplified) Python `repr` of a string. -/
def reprEscapeChar (c : Char) : String :=
  if c = '\\' then "\\\\" else if c = '\'' then "\\'" else String.singleton c

/-- Simplified Python `repr` of a JSON value (single-quoted strings with
backslash and quote escaping; containers rendered as Python displays). -/
def pyRepr : Json → String
  | .null => "None"
  | .bool true => "True"
  | .bool false => "False"
  | .num n => toString n
  | .str s => "'" ++ String.join (s.toList.map reprEscapeChar) ++ "'"
  | .arr xs => "[" ++ String.intercalate ", " (xs.attach.map (fun x => pyRepr x.1)) ++ "]"
  | .obj fs =>
    "\x7b" ++
      String.intercalate ", "
        (fs.attach.map (fun f =>
          "'" ++ String.join (f.1.1.toList.map reprEscapeChar) ++ "': " ++ pyRepr f.1.2)) ++
    "\x7d"
termination_by j => sizeOf j
decreasing_by
  · have := List.sizeOf_lt_of_mem x.2
    simp only [Json.arr.sizeOf_spec]
    omega
  · simp only [Json.obj.sizeOf_spec]
    have h1 := List.sizeOf_lt_of_mem f.2
    have h2 : sizeOf f.1.2 < sizeOf f.1 := by
      obtain ⟨⟨a, b⟩, hf⟩ := f
      simp only [Prod.mk.sizeOf_spec]
      omega
    omega

/-- Python `str()` of a JSON value: identity on strings, `repr`-like
otherwise (`None`, `True`, `5`, ...); the scalar cases are spelled out
(they agree with `pyRepr`) so that they compute structurally. -/
def pyStr : Json → String
  | .str s => s
  | .null => "None"
  | .bool true => "True"
  | .bool false => "False"
  | .num n => toString n
  | v => pyRepr v

/-- Parse a decimal integer literal the way Python's `int(str)` does:
surrounding whitespace allowed, optional sign, at least one digit. -/
def parseIntDigits : List Char → Option Nat
  | [] => none
  | cs =>
    cs.foldl (fun acc c =>
      match acc with
      | none => none
      | some n => if c.isDigit then some (n * 10 + (c.toNat - 48)) else none)
      (some 0)

/-- Python `int(s)` on a string, `none` when it raises `ValueError`. -/
def pyIntOfString (s : String) : Option Int :=
  match s.trim.toList with
  | '-' :: rest => (parseIntDigits rest).map (fun n => -(n : Int))
  | '+' :: rest => (parseIntDigits rest).map (fun n => (n : Int))
  | cs => (parseIntDigits cs).map (fun n => (n : Int))

/-- Python `int(x)` on a JSON value: numbers pass through, booleans map to
0/1, numeric strings parse, everything else raises. -/
def pyInt : Json → Except PyErr Int
  | .num n => .ok n
  | .bool b => .ok (if b then 1 else 0)
  | .str s =>
    match pyIntOfString s with
    | some n => .ok n
    | none => .error .valueError
  | _ => .error .typeError

/-- Python `d.get(k, dflt)`: association lookup when `d` is a dict,
`AttributeError` otherwise (`None`, numbers, strings and lists have no
`.get`). -/
def dictGet (d : Json) (k : String) (dflt : Json) : Except PyErr Json :=
  match d with
  | .obj fs => .ok ((jlookup k fs).getD dflt)
  | _ => .error .attributeError

/-- The keys of a JSON object, in order; `[]` for non-objects. -/
def topKeys : Json → List String
  | .obj fs => fs.map (fun f => f.1)
  | _ => []

/-- Whether a JSON value is an object. -/
def isObj : Json → Bool
  | .obj _ => true
  | _ => false

/-- Whether a JSON value is a string. -/
def isStr : Json → Bool
  | .str _ => true
  | _ => false

namespace sdk

/-- `PROTOCOL_VERSION` from `sdk.py`. -/
def PROTOCOL_VERSION : String := "1.0"

/-- The `Message` dataclass from `sdk.py`. -/
structure Message where
  role : String
  content : String
deriving Repr, DecidableEq

/-- The `BufferContext` dataclass: `path` and `filetype` hold whatever the
inbound JSON supplied (`None`, i.e. `Json.null`, when absent). -/
structure BufferContext where
  path : Json := .null
  filetype : Json := .null
deriving Repr

/-- The `EditorContext` dataclass. -/
structure EditorContext where
  cwd : Json := .null
deriving Repr

/-- The `Context` dataclass. -/
structure Context where
  buffer : BufferContext := {}
  editor : EditorContext := {}
deriving Repr

/-- The `Request` dataclass from `sdk.py`.  `tools` is passed through as
an opaque JSON value, exactly as the source stores it. -/
structure Request where
  instructions : String
  messages : List Message
  tools : Json
  context : Context
  iteration : Int
  protocol_version : String := PROTOCOL_VERSION
deriving Repr

/-- One element of the `messages` comprehension in `Request.from_dict`:
`Message(role=str(m.get("role", "user")), content=str(m.get("content", "")))`.
Raises `AttributeError` when the entry is not a dict. -/
def parseMessage (m : Json) : Except PyErr Message := do
  let r ← dictGet m "role" (.str "user")
  let c ← dictGet m "content" (.str "")
  .ok ⟨pyStr r, pyStr c⟩

/-- The iteration `for m in (data.get("messages") or [])` after the `or []`
defaulting: lists map each entry through `parseMessage`; a truthy dict or
string iterates to strings which then fail `.get` with `AttributeError`;
numbers and booleans are not iterable (`TypeError`). -/
def parseMessages : Json → Except PyErr (List Message)
  | .arr xs => xs.mapM parseMessage
  | .obj _ => .error .attributeError
  | .str _ => .error .attributeError
  | _ => .error .typeError

/-- The protocol-version extraction of `Request.from_dict`:
`proto = data.get("protocol", \x7b\x7d) or \x7b\x7d` followed by
`pv = str(proto.get("version") or PROTOCOL_VERSION)`. -/
def pvOf (data : Json) : Except PyErr String := do
  let protoRaw ← dictGet data "protocol" (.obj [])
  let versionRaw ← dictGet (pyOr protoRaw (.obj [])) "version" .null
  .ok (pyStr (pyOr versionRaw (.str PROTOCOL_VERSION)))

/-- The messages extraction of `Request.from_dict`: the comprehension over
`data.get("messages") or []`. -/
def msgsOf (data : Json) : Except PyErr (List Message) := do
  let raw ← dictGet data "messages" .null
  parseMessages (pyOr raw (.arr []))

/-- The context extraction of `Request.from_dict`:
`ctx_raw = data.get("context") or \x7b\x7d`, then `buffer`/`editor` each
defaulted with `or \x7b\x7d`, then the leaf `.get` calls. -/
def ctxOf (data : Json) : Except PyErr Context := do
  let ctxRaw0 ← dictGet data "context" .null
  let ctx_raw := pyOr ctxRaw0 (.obj [])
  let bufRaw ← dictGet ctx_raw "buffer" .null
  let buf := pyOr bufRaw (.obj [])
  let edtRaw ← dictGet ctx_raw "editor" .null
  let edt := pyOr edtRaw (.obj [])
  let path ← dictGet buf "path" .null
  let filetype ← dictGet buf "filetype" .null
  let cwd ← dictGet edt "cwd" .null
  .ok ⟨⟨path, filetype⟩, ⟨cwd⟩⟩

/-- The instructions extraction of `Request.from_dict`:
`str(data.get("instructions") or "")`. -/
def instrOf (data : Json) : Except PyErr String := do
  let raw ← dictGet data "instructions" .null
  .ok (pyStr (pyOr raw (.str "")))

/-- The tools extraction of `Request.from_dict`:
`data.get("tools") or \x7b\x7d`, stored opaquely. -/
def toolsOf (data : Json) : Except PyErr Json := do
  let raw ← dictGet data "tools" .null
  .ok (pyOr raw (.obj []))

/-- The iteration extraction of `Request.from_dict`:
`int(data.get("iteration") or 1)`. -/
def iterOf (data : Json) : Except PyErr Int := do
  let raw ← dictGet data "iteration" .null
  pyInt (pyOr raw (.num 1))

/-- `Request.from_dict` from `sdk.py`, assembled from the per-field
extractions in the source's evaluation (and hence exception) order, with
Python attribute, type and value errors made explicit in `Except`. -/
def Request.from_dict (data : Json) : Except PyErr Request := do
  let pv ← pvOf data
  let msgs ← msgsOf data
  let ctx ← ctxOf data
  let instr ← instrOf data
  let tools ← toolsOf data
  let iter ← iterOf data
  .ok { instructions := instr
        messages := msgs
        tools := tools
        context := ctx
        iteration := iter
        protocol_version := pv }

/-- `reply` from `sdk.py` (well-typed argument, so `str()` is identity). -/
def reply (content : String) : Json :=
  .obj [("content", .str content)]

/-- `call_tool` from `sdk.py`: `arguments` defaults to `None` and
`dict(arguments or {})` yields an empty mapping for `None`. -/
def call_tool (name : String) (arguments : Option (List (String × Json))) : Json :=
  .obj [("tool_call", .obj [("name", .str name), ("arguments", .obj (arguments.getD []))])]

/-- `ask_user` from `sdk.py`. -/
def ask_user (message : String) : Json :=
  .obj [("ask_user", .obj [("message", .str message)])]

/-- `terminate` from `sdk.py`: the `message` key is added only when the
argument is truthy (neither `None` nor the empty string). -/
def terminate (message : Option String) : Json :=
  match message with
  | some s =>
    if s.isEmpty then .obj [("terminate", .obj [])]
    else .obj [("terminate", .obj [("message", .str s)])]
  | none => .obj [("terminate", .obj [])]

/-- `error` from `sdk.py`. -/
def error (message : String) : Json :=
  .obj [("error", .obj [("message", .str message)])]

end sdk

namespace jsonmod

/-- Modelled from the spec: Python's stdlib `json.loads` (not part of
`src/`).  JSON whitespace. -/
def isWs (c : Char) : Bool :=
  c = ' ' || c = '\t' || c = '\n' || c = '\r'

/-- Drop leading JSON whitespace. -/
def skipWs : List Char → List Char
  | c :: rest => if isWs c then skipWs rest else c :: rest
  | [] => []

/-- Value of a hex digit. -/
def hexVal (c : Char) : Option Nat :=
  if c.isDigit then some (c.toNat - 48)
  else if 'a' ≤ c ∧ c ≤ 'f' then some (c.toNat - 87)
  else if 'A' ≤ c ∧ c ≤ 'F' then some (c.toNat - 55)
  else none

/-- Parse the body of a JSON string literal after the opening quote,
returning the decoded characters and the remaining input. -/
def parseStringChars : List Char → Except String (List Char × List Char)
  | [] => .error "Unterminated string"
  | '"' :: rest => .ok ([], rest)
  | '\\' :: 'u' :: h1 :: h2 :: h3 :: h4 :: rest => do
    match hexVal h1, hexVal h2, hexVal h3, hexVal h4 with
    | some a, some b, some c, some d =>
      let (s, r) ← parseStringChars rest
      .ok (Char.ofNat (((a * 16 + b) * 16 + c) * 16 + d) :: s, r)
    | _, _, _, _ => .error "Invalid \\uXXXX escape"
  | '\\' :: c :: rest =>
    let esc : Option Char :=
      if c = '"' then some '"'
      else if c = '\\' then some '\\'
      else if c = '/' then some '/'
      else if c = 'n' then some '\n'
      else if c = 't' then some '\t'
      else if c = 'r' then some '\r'
      else if c = 'b' then some (Char.ofNat 8)
      else if c = 'f' then some (Char.ofNat 12)
      else none
    match esc with
    | some e => do
      let (s, r) ← parseStringChars rest
      .ok (e :: s, r)
    | none => .error "Invalid \\escape"
  | c :: rest => do
    let (s, r) ← parseStringChars rest
    .ok (c :: s, r)

/-- Decimal digits to a natural number. -/
def digitsToNat (ds : List Char) : Nat :=
  ds.foldl (fun acc c => acc * 10 + (c.toNat - 48)) 0

/-- Parse a JSON number.  This model covers integer literals only; a
fractional or exponent part (a Python float) is outside the model and
reported as a decode failure. -/
def parseNumber (cs : List Char) : Except String (Json × List Char) :=
  let signed := match cs with
    | '-' :: r => (true, r)
    | _ => (false, cs)
  let body := (signed.2).span Char.isDigit
  if body.1.isEmpty then .error "Expecting value"
  else
    match body.2 with
    | '.' :: _ => .error "Float literals are outside this model"
    | c :: _ =>
      if c = 'e' ∨ c = 'E' then .error "Float literals are outside this model"
      else
        .ok (.num (if signed.1 then -(digitsToNat body.1 : Int) else (digitsToNat body.1 : Int)),
             body.2)
    | [] =>
      .ok (.num (if signed.1 then -(digitsToNat body.1 : Int) else (digitsToNat body.1 : Int)),
           body.2)

mutual

/-- Parse one JSON value; `fuel` bounds the number of values parsed. -/
def parseVal : Nat → List Char → Except String (Json × List Char)
  | 0, _ => .error "Too deeply nested"
  | fuel + 1, cs =>
    match skipWs cs with
    | [] => .error "Expecting value"
    | 'n' :: 'u' :: 'l' :: 'l' :: rest => .ok (.null, rest)
    | 't' :: 'r' :: 'u' :: 'e' :: rest => .ok (.bool true, rest)
    | 'f' :: 'a' :: 'l' :: 's' :: 'e' :: rest => .ok (.bool false, rest)
    | '"' :: rest => do
      let (s, r) ← parseStringChars rest
      .ok (.str (String.mk s), r)
    | '[' :: rest =>
      (match skipWs rest with
       | ']' :: r => .ok (.arr [], r)
       | _ => parseArrElems fuel rest [])
    | '\x7b' :: rest =>
      (match skipWs rest with
       | '\x7d' :: r => .ok (.obj [], r)
       | _ => parseObjFields fuel rest [])
    | other => parseNumber other

/-- Parse the comma-separated elements of a JSON array. -/
def parseArrElems : Nat → List Char → List Json → Except String (Json × List Char)
  | 0, _, _ => .error "Too deeply nested"
  | fuel + 1, cs, acc => do
    let (v, r1) ← parseVal fuel cs
    match skipWs r1 with
    | ',' :: r2 => parseArrElems fuel r2 (acc ++ [v])
    | ']' :: r2 => .ok (.arr (acc ++ [v]), r2)
    | _ => .error "Expecting comma delimiter"

/-- Parse the comma-separated members of a JSON object. -/
def parseObjFields : Nat → List Char → List (String × Json) → Except String (Json × List Char)
  | 0, _, _ => .error "Too deeply nested"
  | fuel + 1, cs, acc =>
    match skipWs cs with
    | '"' :: r => do
      let (k, r1) ← parseStringChars r
      match skipWs r1 with
      | ':' :: r2 => do
        let (v, r3) ← parseVal fuel r2
        (match skipWs r3 with
         | ',' :: r4 => parseObjFields fuel r4 (acc ++ [(String.mk k, v)])
         | '\x7d' :: r4 => .ok (.obj (acc ++ [(String.mk k, v)]), r4)
         | _ => .error "Expecting comma delimiter")
      | _ => .error "Expecting colon delimiter"
    | _ => .error "Expecting property name"

end

/-- Modelled from the spec: Python's stdlib `json.loads`, restricted to
integer numbers.  Decodes one JSON document and rejects trailing data. -/
def loads (s : String) : Except String Json :=
  match parseVal (s.toList.length + 1) s.toList with
  | .ok (v, rest) => if (skipWs rest).isEmpty then .ok v else .error "Extra data"
  | .error e => .error e

end jsonmod

/-- `read_request` from `sdk.py`: `Request.from_dict(json.loads(raw or "\x7b\x7d"))`,
with the stdin read abstracted to the string argument. -/
def sdk.read_request (raw : String) : Except PyErr sdk.Request :=
  match jsonmod.loads (if raw.isEmpty then "\x7b\x7d" else raw) with
  | .ok j => sdk.Request.from_dict j
  | .error e => .error (.jsonDecodeError e)

namespace agent_runner

/-- `read_stdin_json` from `agent_runner.py`, stdin abstracted to the
string argument: `json.loads(data or "\x7b\x7d")`. -/
def read_stdin_json (stdin : String) : Except String Json :=
  jsonmod.loads (if stdin.isEmpty then "\x7b\x7d" else stdin)

/-- Python `"user" == v` for a JSON value: string comparison when `v` is a
string, `False` otherwise. -/
def eqStrUser (v : Json) : Bool :=
  match v with
  | .str t => t = "user"
  | _ => false

/-- Python `iteration == 1` after the `or 1` defaulting: true for the
number 1 and for `True` (Python booleans compare equal to integers). -/
def eqOne (v : Json) : Bool :=
  match v with
  | .num n => n = 1
  | .bool b => b
  | _ => false

/-- Naive substring test, for Python's `x in someString`. -/
def strContains (hay needle : String) : Bool :=
  hay.toList.tails.any (fun t => needle.toList.isPrefixOf t)

/-- Python `"ReadFileLines" in tools` after the `or \x7b\x7d` defaulting:
key membership for dicts, substring for strings, element membership for
lists, `TypeError` otherwise. -/
def hasReadFileLines : Json → Except PyErr Bool
  | .obj fs => .ok (fs.any (fun f => f.1 = "ReadFileLines"))
  | .str s => .ok (strContains s "ReadFileLines")
  | .arr xs => .ok (xs.any (fun x => match x with
      | .str t => t = "ReadFileLines"
      | _ => false))
  | _ => .error .typeError

/-- The generator scan `next((m for m in reversed(messages) if
m.get("role") == "user"), None)`, element list already reversed. -/
def findUser : List Json → Except PyErr (Option Json)
  | [] => .ok none
  | m :: rest => do
    let r ← dictGet m "role" .null
    if eqStrUser r then .ok (some m) else findUser rest

/-- `reversed(messages)` plus the generator scan: a list is scanned in
reverse; a truthy dict or string yields string elements whose `.get`
raises; numbers and booleans are not reversible. -/
def findLastUser : Json → Except PyErr (Option Json)
  | .arr xs => findUser xs.reverse
  | .obj _ => .error .attributeError
  | .str _ => .error .attributeError
  | _ => .error .typeError

/-- The fixed demonstration tool call returned on iteration 1 when the
`ReadFileLines` tool is available. -/
def readFileLinesResponse : Json :=
  .obj [("tool_call", .obj
    [("name", .str "ReadFileLines"),
     ("arguments", .obj
       [("path", .str "/etc/hosts"), ("start_line", .num 1), ("end_line", .num 20)])])]

/-- `build_simple_response` from `agent_runner.py`. -/
def build_simple_response (payload : Json) : Except PyErr Json := do
  let instructions := pyOr (← dictGet payload "instructions" .null) (.str "")
  let messages := pyOr (← dictGet payload "messages" .null) (.arr [])
  let iteration := pyOr (← dictGet payload "iteration" .null) (.num 1)
  let tools := pyOr (← dictGet payload "tools" .null) (.obj [])
  if eqOne iteration ∧ (← hasReadFileLines tools) = true then
    .ok readFileLinesResponse
  else do
    let last_user ← findLastUser messages
    let text : Json ←
      match last_user with
      | some m =>
        if truthy m then do
          let c ← dictGet m "content" .null
          pure c
        else pure (.str "How can I help you?")
      | none => pure (.str "How can I help you?")
    let text := if truthy instructions
      then .str (pyStr instructions ++ "\n\n" ++ pyStr text)
      else text
    .ok (.obj [("content", text)])

/-- Approximation of Python `str(e)` on a caught exception, used only to
fill the f-string message text; the claims under verification depend on
the message being a string, not on its exact text. -/
def pyErrText : PyErr → String
  | .attributeError => "AttributeError"
  | .typeError => "TypeError"
  | .valueError => "ValueError"
  | .jsonDecodeError m => m

/-- `main` from `agent_runner.py`, modelled as the JSON object the process
serializes to stdout (Python writes `json.dumps` of this value). -/
def main (stdin : String) : Json :=
  match read_stdin_json stdin with
  | .error e => .obj [("error", .str ("Invalid input JSON: " ++ e))]
  | .ok payload =>
    match build_simple_response payload with
    | .error e => .obj [("error", .str ("Runner error: " ++ pyErrText e))]
    | .ok out => out

end agent_runner

/-- Lookup of a top-level key of a JSON object (`none` on non-objects),
used to phrase which fields are absent from an input. -/
def jget (j : Json) (k : String) : Option Json :=
  match j with
  | .obj fs => jlookup k fs
  | _ => none

/-- A field that, when present, must be a string (documented input
schema). -/
def optStrField (fs : List (String × Json)) (k : String) : Bool :=
  match jlookup k fs with
  | none => true
  | some v => isStr v

/-- Documented shape of the `protocol` field: an object whose `version`,
when present, is a string. -/
def protocolSchemaOK : Json → Bool
  | .obj fs => optStrField fs "version"
  | _ => false

/-- Documented shape of one `messages[]` entry: an object whose `role` and
`content`, when present, are strings. -/
def msgEntrySchemaOK : Json → Bool
  | .obj fs => optStrField fs "role" && optStrField fs "content"
  | _ => false

/-- Documented shape of `context.buffer`. -/
def bufferSchemaOK : Json → Bool
  | .obj fs => optStrField fs "path" && optStrField fs "filetype"
  | _ => false

/-- Documented shape of `context.editor`. -/
def editorSchemaOK : Json → Bool
  | .obj fs => optStrField fs "cwd"
  | _ => false

/-- Documented shape of the `context` field. -/
def contextSchemaOK : Json → Bool
  | .obj fs =>
    (match jlookup "buffer" fs with
     | none => true
     | some v => bufferSchemaOK v) &&
    (match jlookup "editor" fs with
     | none => true
     | some v => editorSchemaOK v)
  | _ => false

/-- Documented type of one top-level input field; keys outside the
documented schema are unconstrained (the parser ignores them). -/
def fieldSchemaOK (k : String) (v : Json) : Bool :=
  if k = "protocol" then protocolSchemaOK v
  else if k = "instructions" then isStr v
  else if k = "messages" then
    (match v with
     | .arr xs => xs.all msgEntrySchemaOK
     | _ => false)
  else if k = "tools" then isObj v
  else if k = "context" then contextSchemaOK v
  else if k = "iteration" then
    (match v with
     | .num _ => true
     | _ => false)
  else true

/-- The documented input schema of the protocol (spec section 6): a JSON
object, every field optional, present fields of the documented types. -/
def schemaOK : Json → Bool
  | .obj fs => fs.all (fun f => fieldSchemaOK f.1 f.2)
  | _ => false

/-- The per-entry message rule as amended: `role` defaults to `"user"`
only when absent and is otherwise the `str()` coercion of the value;
`content` defaults to `""` when absent and is otherwise the `str()`
coercion.  (Non-object entries make the parse raise, so the fallback arm
is never reached.) -/
def messageOfEntry : Json → sdk.Message
  | .obj fs =>
    ⟨(match jlookup "role" fs with
      | none => "user"
      | some v => pyStr v),
     (match jlookup "content" fs with
      | none => ""
      | some v => pyStr v)⟩
  | _ => ⟨"", ""⟩

theorem exc_bind_ok {α β ε : Type} (a : α) (f : α → Except ε β) :
    (Except.ok a : Except ε α) >>= f = f a := rfl

theorem exc_bind_err {α β ε : Type} (e : ε) (f : α → Except ε β) :
    (Except.error e : Except ε α) >>= f = (Except.error e : Except ε β) := rfl

theorem dictGet_obj (fs : List (String × Json)) (k : String) (d : Json) :
    dictGet (.obj fs) k d = .ok ((jlookup k fs).getD d) := rfl

theorem jlookup_mem {k : String} {v : Json} :
    ∀ {fs : List (String × Json)}, jlookup k fs = some v → (k, v) ∈ fs := by
  intro fs
  induction fs with
  | nil => intro h; simp [jlookup] at h
  | cons hd tl ih =>
    intro h
    obtain ⟨k', v'⟩ := hd
    simp only [jlookup] at h
    rcases htl : jlookup k tl with _ | w
    · rw [htl] at h
      by_cases hk : k' = k
      · rw [if_pos hk] at h
        obtain rfl : v' = v := by injection h
        subst hk
        exact List.mem_cons_self _ _
      · rw [if_neg hk] at h
        cases h
    · rw [htl] at h
      obtain rfl : w = v := by injection h
      exact List.mem_cons_of_mem _ (ih htl)

theorem schemaOK_field {fs : List (String × Json)} (h : schemaOK (.obj fs) = true)
    {k : String} {v : Json} (hk : jlookup k fs = some v) : fieldSchemaOK k v = true := by
  have hm := jlookup_mem hk
  simp only [schemaOK, List.all_eq_true] at h
  exact h (k, v) hm

theorem parseMessage_obj (fs : List (String × Json)) :
    sdk.parseMessage (.obj fs) = .ok (messageOfEntry (.obj fs)) := by
  simp only [sdk.parseMessage, dictGet_obj, exc_bind_ok, messageOfEntry]
  rcases jlookup "role" fs with _ | v <;> rcases jlookup "content" fs with _ | w <;> rfl

theorem mapM_parseMessage :
    ∀ {xs : List Json}, (∀ x ∈ xs, isObj x = true) →
      xs.mapM sdk.parseMessage = .ok (xs.map messageOfEntry) := by
  intro xs
  induction xs with
  | nil => intro _; rfl
  | cons x rest ih =>
    intro h
    have hx := h x (List.mem_cons_self x rest)
    have hr : ∀ y ∈ rest, isObj y = true := fun y hy => h y (List.mem_cons_of_mem x hy)
    cases x with
    | obj fs =>
      rw [List.mapM_cons, parseMessage_obj, exc_bind_ok, ih hr]
      rfl
    | null => simp [isObj] at hx
    | bool b => simp [isObj] at hx
    | num n => simp [isObj] at hx
    | str s => simp [isObj] at hx
    | arr ys => simp [isObj] at hx

theorem parseMessages_pyOr (xs : List Json) :
    sdk.parseMessages (pyOr (.arr xs) (.arr [])) = sdk.parseMessages (.arr xs) := by
  cases xs <;> rfl

theorem pyOr_obj_get {b : Json} (hb : isObj b = true ∨ truthy b = false) (k : String) :
    ∃ w, dictGet (pyOr b (.obj [])) k .null = .ok w ∧ (truthy b = false → w = .null) := by
  by_cases ht : truthy b = true
  · rcases hb with hb | hb
    · cases b with
      | obj fs =>
        refine ⟨(jlookup k fs).getD .null, ?_, fun hc => by rw [hc] at ht; cases ht⟩
        simp only [pyOr, ht, if_true, dictGet_obj]
      | null => simp [isObj] at hb
      | bool x => simp [isObj] at hb
      | num x => simp [isObj] at hb
      | str x => simp [isObj] at hb
      | arr x => simp [isObj] at hb
    · rw [hb] at ht; cases ht
  · have ht' : truthy b = false := by
      cases hv : truthy b
      · rfl
      · exact absurd hv ht
    refine ⟨.null, ?_, fun _ => rfl⟩
    simp only [pyOr, ht', Bool.false_eq_true, if_false]
    rfl

theorem pvOf_ok {fs : List (String × Json)} (h : schemaOK (.obj fs) = true) :
    ∃ s, sdk.pvOf (.obj fs) = .ok s ∧ (jlookup "protocol" fs = none → s = "1.0") := by
  have hb : isObj ((jlookup "protocol" fs).getD (.obj [])) = true ∨
      truthy ((jlookup "protocol" fs).getD (.obj [])) = false := by
    rcases hp : jlookup "protocol" fs with _ | vp
    · left; rfl
    · have hf := schemaOK_field h hp
      left
      simp only [Option.getD]
      cases vp <;> simp_all [fieldSchemaOK, protocolSchemaOK, isObj]
  obtain ⟨w, hw, hwn⟩ := pyOr_obj_get hb "version"
  refine ⟨pyStr (pyOr w (.str "1.0")), ?_, ?_⟩
  · simp only [sdk.pvOf, dictGet_obj, exc_bind_ok, hw]
    rfl
  · intro hnone
    have hfalse : truthy ((jlookup "protocol" fs).getD (.obj [])) = false := by
      rw [hnone]; rfl
    rw [hwn hfalse]; rfl

theorem msgsOf_ok {fs : List (String × Json)} (h : schemaOK (.obj fs) = true) :
    ∃ ms, sdk.msgsOf (.obj fs) = .ok ms ∧ (jlookup "messages" fs = none → ms = []) := by
  rcases hm : jlookup "messages" fs with _ | vm
  · refine ⟨[], ?_, fun _ => rfl⟩
    simp only [sdk.msgsOf, dictGet_obj, hm, exc_bind_ok]
    rfl
  · have hf := schemaOK_field h hm
    cases vm with
    | arr xs =>
      have hf' : xs.all msgEntrySchemaOK = true := hf
      have hx : ∀ x ∈ xs, isObj x = true := by
        intro x hxm
        have := List.all_eq_true.mp hf' x hxm
        cases x <;> simp_all [msgEntrySchemaOK, isObj]
      refine ⟨xs.map messageOfEntry, ?_, fun hc => Option.noConfusion hc⟩
      simp only [sdk.msgsOf, dictGet_obj, hm, exc_bind_ok, Option.getD, parseMessages_pyOr]
      exact mapM_parseMessage hx
    | null => simp [fieldSchemaOK] at hf
    | bool b => simp [fieldSchemaOK] at hf
    | num n => simp [fieldSchemaOK] at hf
    | str s => simp [fieldSchemaOK] at hf
    | obj pfs => simp [fieldSchemaOK] at hf

theorem ctx_get_shape {b : Json} (hb : contextSchemaOK b = true ∨ truthy b = false) :
    ∃ wb we, dictGet (pyOr b (.obj [])) "buffer" .null = .ok wb ∧
      dictGet (pyOr b (.obj [])) "editor" .null = .ok we ∧
      (isObj wb = true ∨ truthy wb = false) ∧
      (isObj we = true ∨ truthy we = false) ∧
      (truthy b = false → wb = .null ∧ we = .null) := by
  by_cases ht : truthy b = true
  · rcases hb with hb | hb
    · cases b with
      | obj cfs =>
        refine ⟨(jlookup "buffer" cfs).getD .null, (jlookup "editor" cfs).getD .null,
          by simp only [pyOr, ht, if_true, dictGet_obj],
          by simp only [pyOr, ht, if_true, dictGet_obj], ?_, ?_,
          fun hc => by rw [hc] at ht; cases ht⟩
        · rcases hbuf : jlookup "buffer" cfs with _ | vb
          · right; rfl
          · left
            simp only [contextSchemaOK, hbuf, Bool.and_eq_true] at hb
            cases vb <;> simp_all [bufferSchemaOK, isObj]
        · rcases hedt : jlookup "editor" cfs with _ | ve
          · right; rfl
          · left
            simp only [contextSchemaOK, hedt, Bool.and_eq_true] at hb
            cases ve <;> simp_all [editorSchemaOK, isObj]
      | null => simp [contextSchemaOK] at hb
      | bool x => simp [contextSchemaOK] at hb
      | num x => simp [contextSchemaOK] at hb
      | str x => simp [contextSchemaOK] at hb
      | arr x => simp [contextSchemaOK] at hb
    · rw [hb] at ht; cases ht
  · have ht' : truthy b = false := by
      cases hv : truthy b
      · rfl
      · exact absurd hv ht
    refine ⟨.null, .null, ?_, ?_, Or.inr rfl, Or.inr rfl, fun _ => ⟨rfl, rfl⟩⟩ <;>
      · simp only [pyOr, ht', Bool.false_eq_true, if_false]
        rfl

theorem ctxOf_ok {fs : List (String × Json)} (h : schemaOK (.obj fs) = true) :
    ∃ c, sdk.ctxOf (.obj fs) = .ok c ∧
      (jlookup "context" fs = none → c = ⟨⟨.null, .null⟩, ⟨.null⟩⟩) := by
  have hb : contextSchemaOK ((jlookup "context" fs).getD .null) = true ∨
      truthy ((jlookup "context" fs).getD .null) = false := by
    rcases hc : jlookup "context" fs with _ | vc
    · right; rfl
    · have hf := schemaOK_field h hc
      left
      simp only [fieldSchemaOK] at hf
      norm_num at hf
      exact hf
  obtain ⟨wb, we, hwb, hwe, hwbs, hwes, hnull⟩ := ctx_get_shape hb
  obtain ⟨wp, hwp, hwpn⟩ := pyOr_obj_get hwbs "path"
  obtain ⟨wf, hwf, hwfn⟩ := pyOr_obj_get hwbs "filetype"
  obtain ⟨wc, hwc, hwcn⟩ := pyOr_obj_get hwes "cwd"
  refine ⟨⟨⟨wp, wf⟩, ⟨wc⟩⟩, ?_, ?_⟩
  · simp only [sdk.ctxOf, dictGet_obj, exc_bind_ok, hwb, hwe, hwp, hwf, hwc]
  · intro hnone
    have hfalse : truthy ((jlookup "context" fs).getD .null) = false := by
      rw [hnone]; rfl
    obtain ⟨hwb0, hwe0⟩ := hnull hfalse
    subst hwb0 hwe0
    rw [hwpn rfl, hwfn rfl, hwcn rfl]

theorem instrOf_ok (fs : List (String × Json)) :
    ∃ s, sdk.instrOf (.obj fs) = .ok s ∧ (jlookup "instructions" fs = none → s = "") := by
  rcases hi : jlookup "instructions" fs with _ | v
  · refine ⟨"", ?_, fun _ => rfl⟩
    simp only [sdk.instrOf, dictGet_obj, hi, exc_bind_ok]
    rfl
  · refine ⟨pyStr (pyOr v (.str "")), ?_, fun hc => Option.noConfusion hc⟩
    simp only [sdk.instrOf, dictGet_obj, hi, exc_bind_ok]
    rfl

theorem toolsOf_ok (fs : List (String × Json)) :
    ∃ t, sdk.toolsOf (.obj fs) = .ok t ∧ (jlookup "tools" fs = none → t = .obj []) := by
  rcases ht : jlookup "tools" fs with _ | v
  · refine ⟨.obj [], ?_, fun _ => rfl⟩
    simp only [sdk.toolsOf, dictGet_obj, ht, exc_bind_ok]
    rfl
  · refine ⟨pyOr v (.obj []), ?_, fun hc => Option.noConfusion hc⟩
    simp only [sdk.toolsOf, dictGet_obj, ht, exc_bind_ok]
    rfl

theorem iterOf_ok {fs : List (String × Json)} (h : schemaOK (.obj fs) = true) :
    ∃ i, sdk.iterOf (.obj fs) = .ok i ∧ (jlookup "iteration" fs = none → i = 1) := by
  rcases hi : jlookup "iteration" fs with _ | v
  · refine ⟨1, ?_, fun _ => rfl⟩
    simp only [sdk.iterOf, dictGet_obj, hi, exc_bind_ok]
    rfl
  · have hf := schemaOK_field h hi
    cases v with
    | num n =>
      by_cases hn : n = 0
      · subst hn
        refine ⟨1, ?_, fun hc => Option.noConfusion hc⟩
        simp only [sdk.iterOf, dictGet_obj, hi, exc_bind_ok]
        rfl
      · have htr : truthy (.num n) = true := by simp [truthy, hn]
        refine ⟨n, ?_, fun hc => Option.noConfusion hc⟩
        simp only [sdk.iterOf, dictGet_obj, hi, exc_bind_ok, Option.getD, pyOr, htr, if_true]
        rfl
    | null => simp [fieldSchemaOK] at hf
    | bool b => simp [fieldSchemaOK] at hf
    | str s => simp [fieldSchemaOK] at hf
    | arr xs => simp [fieldSchemaOK] at hf
    | obj pfs => simp [fieldSchemaOK] at hf

theorem from_dict_schema_ok' {fs : List (String × Json)} (h : schemaOK (.obj fs) = true) :
    ∃ r, sdk.Request.from_dict (.obj fs) = .ok r ∧
      (jlookup "instructions" fs = none → r.instructions = "") ∧
      (jlookup "messages" fs = none → r.messages = []) ∧
      (jlookup "tools" fs = none → r.tools = .obj []) ∧
      (jlookup "context" fs = none → r.context = ⟨⟨.null, .null⟩, ⟨.null⟩⟩) ∧
      (jlookup "iteration" fs = none → r.iteration = 1) ∧
      (jlookup "protocol" fs = none → r.protocol_version = "1.0") := by
  obtain ⟨pv, hpv, hpvd⟩ := pvOf_ok h
  obtain ⟨ms, hms, hmsd⟩ := msgsOf_ok h
  obtain ⟨ctx, hctx, hctxd⟩ := ctxOf_ok h
  obtain ⟨ins, hins, hinsd⟩ := instrOf_ok fs
  obtain ⟨tl, htl, htld⟩ := toolsOf_ok fs
  obtain ⟨it, hit, hitd⟩ := iterOf_ok h
  refine ⟨⟨ins, ms, tl, ctx, it, pv⟩, ?_, hinsd, hmsd, htld, hctxd, hitd, hpvd⟩
  simp only [sdk.Request.from_dict, hpv, hms, hctx, hins, htl, hit, exc_bind_ok]

/-- C1: the claim as stated is false: an input object whose `protocol`
field holds a truthy non-object (here the number 1) makes
`Request.from_dict` raise `AttributeError` on `proto.get("version")`. -/
theorem C1_counterexample :
    sdk.Request.from_dict (.obj [("protocol", .num 1)]) = .error .attributeError := rfl

/-- C1 (amended): for every JSON object whose present fields conform to
the documented input schema, `parse` returns a `Request` without raising,
and every absent top-level field takes its documented default
(`instructions=""`, `messages=[]`, `tools={}`, context all-absent,
`iteration=1`, `protocol_version="1.0"`). -/
theorem C1_schema_parse_total (j : Json) (h : schemaOK j = true) :
    ∃ r, sdk.Request.from_dict j = .ok r ∧
      (jget j "instructions" = none → r.instructions = "") ∧
      (jget j "messages" = none → r.messages = []) ∧
      (jget j "tools" = none → r.tools = .obj []) ∧
      (jget j "context" = none → r.context = ⟨⟨.null, .null⟩, ⟨.null⟩⟩) ∧
      (jget j "iteration" = none → r.iteration = 1) ∧
      (jget j "protocol" = none → r.protocol_version = "1.0") := by
  cases j with
  | obj fs => exact from_dict_schema_ok' h
  | null => simp [schemaOK] at h
  | bool b => simp [schemaOK] at h
  | num n => simp [schemaOK] at h
  | str s => simp [schemaOK] at h
  | arr xs => simp [schemaOK] at h

/-- C1 witness: the empty object satisfies the schema and parses to the
all-defaults `Request`. -/
theorem C1_schema_parse_total_witness :
    ∃ r, sdk.Request.from_dict (.obj []) = .ok r ∧
      (jget (.obj []) "instructions" = none → r.instructions = "") ∧
      (jget (.obj []) "messages" = none → r.messages = []) ∧
      (jget (.obj []) "tools" = none → r.tools = .obj []) ∧
      (jget (.obj []) "context" = none → r.context = ⟨⟨.null, .null⟩, ⟨.null⟩⟩) ∧
      (jget (.obj []) "iteration" = none → r.iteration = 1) ∧
      (jget (.obj []) "protocol" = none → r.protocol_version = "1.0") :=
  C1_schema_parse_total (.obj []) rfl

/-- C2: the claim as stated is false: `parse` of a decoded non-object
(here the JSON array `[]`) raises `AttributeError` instead of falling back
to the all-defaults `Request`. -/
theorem C2_counterexample :
    sdk.read_request "[]" = .error .attributeError := rfl

/-- C2 (amended): for every decoded JSON value that is not an object,
`Request.from_dict` raises `AttributeError` (on `data.get`); it never
falls back to defaults, so `parse` yields a `Request` only when the
decoded JSON is an object. -/
theorem C2_nonobject_raises (j : Json) (h : isObj j = false) :
    sdk.Request.from_dict j = .error .attributeError := by
  cases j with
  | obj fs => simp [isObj] at h
  | null => rfl
  | bool b => rfl
  | num n => rfl
  | str s => rfl
  | arr xs => rfl

/-- C2 witness: the empty JSON array is not an object and makes
`from_dict` raise. -/
theorem C2_nonobject_raises_witness :
    isObj (.arr []) = false ∧
    sdk.Request.from_dict (.arr []) = .error .attributeError :=
  ⟨rfl, C2_nonobject_raises (.arr []) rfl⟩

/-- C3: the claim as stated is false: on invalid JSON input, `main` writes
an object whose sole key is `error`, but its value is a flat string
(`f"Invalid input JSON: ..."`), not an object with a `message` field as
the output schema prescribes. -/
theorem C3_counterexample :
    agent_runner.main "not json" =
      .obj [("error", .str "Invalid input JSON: Expecting value")] ∧
    isObj ((jget (agent_runner.main "not json") "error").getD .null) = false ∧
    isStr ((jget (agent_runner.main "not json") "error").getD .null) = true :=
  ⟨rfl, rfl, rfl⟩

/-- C3 (amended): for every nonempty input string that fails JSON
decoding, `main` writes a single JSON object whose sole top-level key is
`error` and whose value is the string `"Invalid input JSON: "` followed by
the decode-error text; it never crashes, never propagates the exception,
and never produces empty output.  (The empty input string is excluded: the
source treats it as `"{}"` and answers with a `content` envelope.) -/
theorem C3_invalid_json_error_envelope (s e : String)
    (h1 : s.isEmpty = false) (h2 : jsonmod.loads s = .error e) :
    agent_runner.main s = .obj [("error", .str ("Invalid input JSON: " ++ e))] ∧
    topKeys (agent_runner.main s) = ["error"] := by
  have hm : agent_runner.main s = .obj [("error", .str ("Invalid input JSON: " ++ e))] := by
    simp only [agent_runner.main, agent_runner.read_stdin_json, h1, Bool.false_eq_true,
      if_false, h2]
  exact ⟨hm, by rw [hm]; rfl⟩

/-- C3 witness: the string `"not json"` is nonempty, fails decoding, and
yields the flat error envelope. -/
theorem C3_invalid_json_error_envelope_witness :
    ("not json").isEmpty = false ∧
    jsonmod.loads "not json" = .error "Expecting value" ∧
    (agent_runner.main "not json" =
       .obj [("error", .str ("Invalid input JSON: " ++ "Expecting value"))] ∧
     topKeys (agent_runner.main "not json") = ["error"]) :=
  ⟨rfl, rfl, C3_invalid_json_error_envelope "not json" "Expecting value" rfl rfl⟩

/-- C4: each of the five envelope constructors produces, for every
well-typed argument, an object with exactly one top-level key, drawn from
`content | tool_call | ask_user | terminate | error`. -/
theorem C4_single_top_key (c n m e : String)
    (args : Option (List (String × Json))) (t : Option String) :
    topKeys (sdk.reply c) = ["content"] ∧
    topKeys (sdk.call_tool n args) = ["tool_call"] ∧
    topKeys (sdk.ask_user m) = ["ask_user"] ∧
    topKeys (sdk.terminate t) = ["terminate"] ∧
    topKeys (sdk.error e) = ["error"] := by
  refine ⟨rfl, rfl, rfl, ?_, rfl⟩
  cases t with
  | none => rfl
  | some s =>
    by_cases hs : s.isEmpty <;> simp [sdk.terminate, topKeys, hs]

/-- C4 witness: concrete instantiation of the constructor arguments. -/
theorem C4_single_top_key_witness :
    topKeys (sdk.reply "a") = ["content"] ∧
    topKeys (sdk.call_tool "b" none) = ["tool_call"] ∧
    topKeys (sdk.ask_user "c") = ["ask_user"] ∧
    topKeys (sdk.terminate none) = ["terminate"] ∧
    topKeys (sdk.error "d") = ["error"] :=
  C4_single_top_key "a" "b" "c" "d" none none

/-- C5: `parse("")` and `parse("{}")` agree and yield the
all-defaults `Request`: empty instructions, no messages, empty tools,
iteration 1, context all-absent, protocol version `"1.0"`. -/
theorem C5_empty_and_empty_object_equivalent :
    sdk.read_request "" = sdk.read_request "{}" ∧
    sdk.read_request "" =
      .ok ⟨"", [], .obj [], ⟨⟨.null, .null⟩, ⟨.null⟩⟩, 1, "1.0"⟩ :=
  ⟨rfl, rfl⟩

/-- C6: `terminate()` serializes as `{"terminate": {}}` with the
`message` key entirely absent, and `terminate("done")` carries the
message. -/
theorem C6_terminate_message_shape :
    sdk.terminate none = .obj [("terminate", .obj [])] ∧
    sdk.terminate (some "done") = .obj [("terminate", .obj [("message", .str "done")])] :=
  ⟨rfl, rfl⟩

/-- C7: `call_tool(name)` with no arguments serializes `arguments` as the
empty mapping, present rather than absent. -/
theorem C7_call_tool_empty_arguments (name : String) :
    sdk.call_tool name none =
      .obj [("tool_call", .obj [("name", .str name), ("arguments", .obj [])])] := rfl

/-- C7 witness: concrete tool name. -/
theorem C7_call_tool_empty_arguments_witness :
    sdk.call_tool "X" none =
      .obj [("tool_call", .obj [("name", .str "X"), ("arguments", .obj [])])] :=
  C7_call_tool_empty_arguments "X"

/-- C8: the claim as stated is false: a message entry whose `role` is
present but not a string (here the number 5) yields role `"5"`, the
`str()` coercion, not the claimed default `"user"`. -/
theorem C8_counterexample :
    sdk.Request.from_dict (.obj [("messages", .arr [.obj [("role", .num 5)]])]) =
      .ok ⟨"", [⟨"5", ""⟩], .obj [], ⟨⟨.null, .null⟩, ⟨.null⟩⟩, 1, "1.0"⟩ ∧
    ("5" : String) ≠ "user" := ⟨rfl, by decide⟩

/-- C8 (amended): for message entries that are objects, `role` defaults to
`"user"` only when the field is absent and is otherwise the `str()`
coercion of its value, and `content` is the `str()` coercion of its value,
defaulting to the empty string when absent (`messageOfEntry`). -/
theorem C8_message_defaulting (entries : List Json)
    (h : ∀ x ∈ entries, isObj x = true) :
    ∃ r, sdk.Request.from_dict (.obj [("messages", .arr entries)]) = .ok r ∧
      r.messages = entries.map messageOfEntry := by
  refine ⟨⟨"", entries.map messageOfEntry, .obj [], ⟨⟨.null, .null⟩, ⟨.null⟩⟩, 1, "1.0"⟩,
    ?_, rfl⟩
  have hpv : sdk.pvOf (.obj [("messages", .arr entries)]) = .ok "1.0" := rfl
  have hctx : sdk.ctxOf (.obj [("messages", .arr entries)]) =
      .ok ⟨⟨.null, .null⟩, ⟨.null⟩⟩ := rfl
  have hins : sdk.instrOf (.obj [("messages", .arr entries)]) = .ok "" := rfl
  have htls : sdk.toolsOf (.obj [("messages", .arr entries)]) = .ok (.obj []) := rfl
  have hit : sdk.iterOf (.obj [("messages", .arr entries)]) = .ok 1 := rfl
  have hms : sdk.msgsOf (.obj [("messages", .arr entries)]) =
      .ok (entries.map messageOfEntry) := by
    have h1 : sdk.msgsOf (.obj [("messages", .arr entries)]) =
        sdk.parseMessages (pyOr (.arr entries) (.arr [])) := rfl
    rw [h1, parseMessages_pyOr]
    exact mapM_parseMessage h
  simp only [sdk.Request.from_dict, hpv, hms, hctx, hins, htls, hit, exc_bind_ok]

/-- C8 witness: one entry with a numeric role, coerced to `"5"`. -/
theorem C8_message_defaulting_witness :
    ∃ r, sdk.Request.from_dict (.obj [("messages", .arr [.obj [("role", .num 5)]])]) = .ok r ∧
      r.messages = [Json.obj [("role", .num 5)]].map messageOfEntry :=
  C8_message_defaulting [.obj [("role", .num 5)]] (by decide)

/-- C9: `iteration` is coerced to an integer; an absent field, the value
0, and any other falsy value all yield iteration 1, so `iteration: 0` is
indistinguishable from an absent field. -/
theorem C9_iteration_flattening (n : Int) (v : Json) :
    (∃ r, sdk.Request.from_dict (.obj [("iteration", .num n)]) = .ok r ∧
       r.iteration = (if n = 0 then 1 else n)) ∧
    (∃ r0, sdk.Request.from_dict (.obj []) = .ok r0 ∧ r0.iteration = 1) ∧
    (truthy v = false →
      sdk.Request.from_dict (.obj [("iteration", v)]) =
        sdk.Request.from_dict (.obj [])) := by
  refine ⟨?_, ⟨⟨"", [], .obj [], ⟨⟨.null, .null⟩, ⟨.null⟩⟩, 1, "1.0"⟩, rfl, rfl⟩, ?_⟩
  · by_cases hn : n = 0
    · subst hn
      exact ⟨⟨"", [], .obj [], ⟨⟨.null, .null⟩, ⟨.null⟩⟩, 1, "1.0"⟩, rfl, by simp⟩
    · refine ⟨⟨"", [], .obj [], ⟨⟨.null, .null⟩, ⟨.null⟩⟩, n, "1.0"⟩, ?_, by simp [hn]⟩
      have htr : truthy (.num n) = true := by simp [truthy, hn]
      have hit : sdk.iterOf (.obj [("iteration", .num n)]) = .ok n := by
        have h1 : sdk.iterOf (.obj [("iteration", .num n)]) =
            pyInt (pyOr (.num n) (.num 1)) := rfl
        rw [h1]
        simp only [pyOr, htr, if_true]
        rfl
      have hpv : sdk.pvOf (.obj [("iteration", .num n)]) = .ok "1.0" := rfl
      have hms : sdk.msgsOf (.obj [("iteration", .num n)]) = .ok [] := rfl
      have hctx : sdk.ctxOf (.obj [("iteration", .num n)]) =
          .ok ⟨⟨.null, .null⟩, ⟨.null⟩⟩ := rfl
      have hins : sdk.instrOf (.obj [("iteration", .num n)]) = .ok "" := rfl
      have htls : sdk.toolsOf (.obj [("iteration", .num n)]) = .ok (.obj []) := rfl
      simp only [sdk.Request.from_dict, hpv, hms, hctx, hins, htls, hit, exc_bind_ok]
  · intro hv
    have hit : sdk.iterOf (.obj [("iteration", v)]) = .ok 1 := by
      have h1 : sdk.iterOf (.obj [("iteration", v)]) = pyInt (pyOr v (.num 1)) := rfl
      rw [h1]
      simp only [pyOr, hv, Bool.false_eq_true, if_false]
      rfl
    have hpv : sdk.pvOf (.obj [("iteration", v)]) = .ok "1.0" := rfl
    have hms : sdk.msgsOf (.obj [("iteration", v)]) = .ok [] := rfl
    have hctx : sdk.ctxOf (.obj [("iteration", v)]) = .ok ⟨⟨.null, .null⟩, ⟨.null⟩⟩ := rfl
    have hins : sdk.instrOf (.obj [("iteration", v)]) = .ok "" := rfl
    have htls : sdk.toolsOf (.obj [("iteration", v)]) = .ok (.obj []) := rfl
    simp only [sdk.Request.from_dict, hpv, hms, hctx, hins, htls, hit, exc_bind_ok]
    rfl

/-- C9 witness: at `iteration: 0` the result equals the parse of the empty
object (a falsy value behaves the same). -/
theorem C9_iteration_flattening_witness :
    truthy (.bool false) = false ∧
    sdk.Request.from_dict (.obj [("iteration", .bool false)]) =
      sdk.Request.from_dict (.obj []) ∧
    (∃ r, sdk.Request.from_dict (.obj [("iteration", .num 0)]) = .ok r ∧
       r.iteration = (if (0 : Int) = 0 then 1 else 0)) :=
  ⟨rfl, (C9_iteration_flattening 0 (.bool false)).2.2 rfl,
    (C9_iteration_flattening 0 (.bool false)).1⟩

/-- C10: `terminate("")` omits the `message` key entirely: the empty
string is falsy, so the envelope equals `terminate()`. -/
theorem C10_terminate_empty_string :
    sdk.terminate (some "") = .obj [("terminate", .obj [])] ∧
    sdk.terminate (some "") = sdk.terminate none :=
  ⟨rfl, rfl⟩

end AFinder
